import Mathlib

/-!
Verification of the adaptive data-analysis core of this repository:
the profiler (analyzer/profiling.py), the imputer and outlier detector
(analyzer/cleaning.py) and the statistical analyzer (analyzer/analysis.py).

Modelling conventions:
* A pandas DataFrame read from the parquet file is modelled as a `Table`:
  a row count plus an ordered list of named, typed columns.  A cell is
  `Option v`; `none` models a NaN/NaT/None cell.
* Floating point numbers are idealised as `ℚ`.
* The Python functions take a parquet file path and re-read the file; the
  model passes the table value directly, which is the content of that file.
  Writing the cleaned table to a temp file is dropped; the returned table
  is the content of the written file.
* Code that can raise is modelled with `Except`.  `AnalyzerError.invalidMethod`
  models the `ValueError("Unknown ... method")` raises (the spec calls this
  error `InvalidMethodError`); `AnalyzerError.sklearnFailure` models scikit-learn
  raising out of `KNNImputer` (an all-NaN numeric column is dropped by
  `fit_transform`, making the assignment back into the frame fail, and a
  non-numeric or absent column listed in `numeric_cols` also raises).
-/

deriving instance DecidableEq for Except

/-- One typed column of a table, mirroring the pandas dtype classes the code
distinguishes: `number`, `object`/`category`, and `datetime` (modelled as an
integer timestamp).  A `none` cell is a missing value. -/
inductive ColData where
  | numeric (vals : List (Option ℚ))
  | categorical (vals : List (Option String))
  | datetime (vals : List (Option Int))
deriving DecidableEq

/-- Number of cells in the column. -/
def ColData.length : ColData → Nat
  | .numeric vals => vals.length
  | .categorical vals => vals.length
  | .datetime vals => vals.length

/-- Number of missing (NaN/NaT/None) cells, as counted by `df[col].isnull().sum()`. -/
def ColData.missingCount : ColData → Nat
  | .numeric vals => (vals.filter (fun v => v.isNone)).length
  | .categorical vals => (vals.filter (fun v => v.isNone)).length
  | .datetime vals => (vals.filter (fun v => v.isNone)).length

/-- True when the column dtype is numeric (pandas select_dtypes with the number kind). -/
def ColData.isNumericB : ColData → Bool
  | .numeric _ => true
  | _ => false

/-- True when the column dtype is object/category. -/
def ColData.isCategoricalB : ColData → Bool
  | .categorical _ => true
  | _ => false

/-- True when the column dtype is datetime. -/
def ColData.isDatetimeB : ColData → Bool
  | .datetime _ => true
  | _ => false

/-- Count of distinct non-missing values, as computed by `df[col].nunique()`. -/
def ColData.nunique : ColData → Nat
  | .numeric vals => (vals.filterMap id).dedup.length
  | .categorical vals => (vals.filterMap id).dedup.length
  | .datetime vals => (vals.filterMap id).dedup.length

/-- True when every cell of the column is present (no missing values). -/
def ColData.completeB : ColData → Bool
  | .numeric vals => vals.all (fun v => v.isSome)
  | .categorical vals => vals.all (fun v => v.isSome)
  | .datetime vals => vals.all (fun v => v.isSome)

/-- True when the column has at least one non-missing value. -/
def ColData.hasPresentB : ColData → Bool
  | .numeric vals => vals.any (fun v => v.isSome)
  | .categorical vals => vals.any (fun v => v.isSome)
  | .datetime vals => vals.any (fun v => v.isSome)

/-- A tabular dataset: the DataFrame read from the parquet file.  `nrows` is
`df.shape[0]`; column order is preserved. -/
structure Table where
  nrows : Nat
  cols : List (String × ColData)
deriving DecidableEq

/-- Well-formedness mirrored from the DataFrame invariant: every column has
exactly `nrows` cells and column names are unique. -/
def TableWF (t : Table) : Prop :=
  (∀ nd ∈ t.cols, ColData.length nd.2 = t.nrows) ∧ (t.cols.map Prod.fst).Nodup

instance : DecidablePred TableWF := fun t => by
  unfold TableWF; infer_instance

/-- Column lookup by name, `df[col]` (first column with that name). -/
def getColData (t : Table) (c : String) : Option ColData :=
  t.cols.lookup c

/-- Lookup of a numeric column's cells; `none` when the name is absent or the
dtype is not numeric. -/
def getNumCol (t : Table) (c : String) : Option (List (Option ℚ)) :=
  match getColData t c with
  | some (ColData.numeric vals) => some vals
  | _ => none

/-- Cell `i` of numeric column `c` (missing when out of range, absent, or
non-numeric). -/
def cellAt (t : Table) (c : String) (i : Nat) : Option ℚ :=
  match getNumCol t c with
  | some vals => vals.getD i none
  | none => none

/-- The profiling result dictionary returned by `profile_data`. -/
structure Profile where
  rows : Nat
  cols : Nat
  missing : List (String × ℚ)
  numeric_cols : List String
  categorical_cols : List String
  date_cols : List String
  high_cardinality : List String
  dimensionality : String
deriving DecidableEq

/-- Floor of a rational, computed so that it kernel-reduces. -/
def ratFloor (q : ℚ) : ℤ := q.num.fdiv q.den

/-- Round half to even, the rounding used by the Python builtin `round` (the
model idealises the binary floating-point representation away). -/
def roundHalfEven (q : ℚ) : ℤ :=
  let f : ℤ := ratFloor q
  let r : ℚ := q - (f : ℚ)
  if r < 1/2 then f
  else if 1/2 < r then f + 1
  else if f % 2 = 0 then f else f + 1

/-- The Python expression `round(x, 1)`. -/
def round1 (q : ℚ) : ℚ := (roundHalfEven (q * 10) : ℚ) / 10

/-- The Python expression `round(x, 2)`. -/
def round2 (q : ℚ) : ℚ := (roundHalfEven (q * 100) : ℚ) / 100

/-- Whether character list `pre` is an initial segment of `s`. -/
def leadsWith : List Char → List Char → Bool
  | [], _ => true
  | _ :: _, [] => false
  | a :: as, b :: bs => a = b && leadsWith as bs

/-- Whether `needle` occurs as a contiguous substring of `hay`. -/
def containsSub (needle : List Char) : List Char → Bool
  | [] => leadsWith needle []
  | c :: t => leadsWith needle (c :: t) || containsSub needle t

/-- The check that col.lower() contains the substring date or the substring
time, from the date-column detection in profile_data. -/
def nameHasDateTime (s : String) : Bool :=
  let l := s.data.map Char.toLower
  containsSub ("date".data) l || containsSub ("time".data) l

/-- Model of `profile_data` (analyzer/profiling.py).  The function body has no
raise statement and raises nothing: it is total.  Percentages use exact
rational arithmetic; `missing_count / rows` is never evaluated when
`missing_count = 0` (the `if missing_count > 0` guard), matching the source. -/
def profile_data (t : Table) : Profile :=
  let rows := t.nrows
  let missing := t.cols.filterMap (fun nd =>
    let missing_count := nd.2.missingCount
    if 0 < missing_count then
      some (nd.1, round1 ((missing_count : ℚ) / (rows : ℚ) * 100))
    else none)
  let numeric_cols := (t.cols.filter (fun nd => nd.2.isNumericB)).map Prod.fst
  let categorical_cols := (t.cols.filter (fun nd => nd.2.isCategoricalB)).map Prod.fst
  let dtype_date_cols := (t.cols.filter (fun nd => nd.2.isDatetimeB)).map Prod.fst
  let date_cols := dtype_date_cols ++
    ((t.cols.map Prod.fst).filter (fun c =>
      nameHasDateTime c && !(dtype_date_cols.contains c)))
  let high_cardinality := categorical_cols.filter (fun c =>
    let n_unique := ((getColData t c).map ColData.nunique).getD 0
    let unique_ratio : ℚ := if 0 < rows then (n_unique : ℚ) / (rows : ℚ) else 0
    decide (50 < n_unique) || (decide ((4:ℚ)/5 < unique_ratio) && decide (2 < n_unique)))
  { rows := rows
    cols := t.cols.length
    missing := missing
    numeric_cols := numeric_cols
    categorical_cols := categorical_cols
    date_cols := date_cols
    high_cardinality := high_cardinality
    dimensionality := if 10 ≤ numeric_cols.length then "high" else "low" }

/-- The dictionary returned by `impute_missing`, minus the temp-file path. -/
structure CleaningResult where
  imputed_columns : List String
  skipped_columns : List String
  method_used : String
deriving DecidableEq

/-- The dictionary returned by `detect_outliers`. -/
structure OutlierResult where
  outlier_indices : List Nat
  method_used : String
  outlier_count : Nat
deriving DecidableEq

/-- Errors the cleaning functions can raise (see the module docstring above). -/
inductive AnalyzerError where
  | invalidMethod (method : String)
  | sklearnFailure
deriving DecidableEq

/-- Minimum of a list, `none` on the empty list. -/
def minOf {α : Type} [Min α] : List α → Option α
  | [] => none
  | x :: xs => some (xs.foldl Min.min x)

/-- Model of `Series.mode()[0]` guarded by `len(mode_val) > 0`: pandas mode
returns the most frequent values sorted ascending, so position 0 is the least
most-frequent value; the result is `none` exactly when there is no
non-missing value (mode of an all-NaN series is empty). -/
def modeOf {α : Type} [DecidableEq α] [LinearOrder α] (l : List α) : Option α :=
  let maxCount := l.foldl (fun a v => Max.max a (l.count v)) 0
  minOf (l.dedup.filter (fun v => l.count v = maxCount))

/-- Arithmetic mean; only applied to nonempty lists (division by zero would
give 0, but no code path below reaches it). -/
def meanQ (l : List ℚ) : ℚ := l.foldl (· + ·) 0 / (l.length : ℚ)

/-- Model of `Series.median()`: NaN values are skipped; `none` (NaN) when no
value is present, else the middle of the sorted present values, averaging the
two middles for even counts. -/
def medianQ (l : List ℚ) : Option ℚ :=
  if l = [] then none
  else
    let s := List.insertionSort (fun a b : ℚ => a ≤ b) l
    let n := l.length
    if n % 2 = 1 then some (s.getD (n / 2) 0)
    else some ((s.getD (n / 2 - 1) 0 + s.getD (n / 2) 0) / 2)

/-- Model of `Series.quantile(p)` with the default linear interpolation:
NaN values are skipped; `none` (NaN) on an all-NaN column. -/
def quantileQ (p : ℚ) (l : List ℚ) : Option ℚ :=
  if l = [] then none
  else
    let s := List.insertionSort (fun a b : ℚ => a ≤ b) l
    let n := l.length
    let pos : ℚ := p * ((n : ℚ) - 1)
    let lo : ℤ := ratFloor pos
    let frac : ℚ := pos - (lo : ℚ)
    let i : Nat := lo.toNat
    some (s.getD i 0 + frac * (s.getD (i + 1) 0 - s.getD i 0))

/-- Replace (every occurrence of) column `x` by transforming its data with `f`;
the model of assigning `df[x] = ...`. -/
def updateCol (t : Table) (x : String) (f : ColData → ColData) : Table :=
  { t with cols := t.cols.map (fun nd => if nd.1 == x then (nd.1, f nd.2) else nd) }

/-- Model of `df[col].fillna(df[col].median())` on the cells of one numeric
column: when the median is NaN (no present value) `fillna` changes nothing. -/
def fillNumeric (vals : List (Option ℚ)) : List (Option ℚ) :=
  match medianQ (vals.filterMap id) with
  | none => vals
  | some m => vals.map (fun v => some (v.getD m))

/-- Median fill applied when the looked-up column is numeric; `df[col].median()`
on a non-numeric column would raise, but the callers below only reach this on
columns listed in `numeric_cols`. -/
def ColData.medianFill : ColData → ColData
  | .numeric vals => .numeric (fillNumeric vals)
  | d => d

/-- Model of the mode fill `df[col].fillna(df[col].mode()[0])` guarded by
`len(mode_val) > 0`, for any dtype (pandas mode works on all three). -/
def ColData.modeFill : ColData → ColData
  | .numeric vals =>
    match modeOf (vals.filterMap id) with
    | none => .numeric vals
    | some m => .numeric (vals.map (fun v => some (v.getD m)))
  | .categorical vals =>
    match modeOf (vals.filterMap id) with
    | none => .categorical vals
    | some m => .categorical (vals.map (fun v => some (v.getD m)))
  | .datetime vals =>
    match modeOf (vals.filterMap id) with
    | none => .datetime vals
    | some m => .datetime (vals.map (fun v => some (v.getD m)))

/-- One of the two imputation loops of `_simple_impute` (and the categorical
loop of `_knn_impute`): for each column name in `names`, if the column appears
in the missing-map `m`, apply the fill to it. -/
def fillPass (fill : Table → String → Table) (m : List (String × ℚ))
    (names : List String) (t : Table) : Table :=
  names.foldl (fun acc col => if (m.lookup col).isSome then fill acc col else acc) t

/-- Model of `_simple_impute`: median fill for numeric columns listed in the
missing-map, then mode fill for categorical columns listed there. -/
def _simple_impute (t : Table) (profile : Profile) : Table :=
  let t1 := fillPass (fun acc col => updateCol acc col ColData.medianFill)
    profile.missing profile.numeric_cols t
  fillPass (fun acc col => updateCol acc col ColData.modeFill)
    profile.missing profile.categorical_cols t1

/-- Squared nan-euclidean distance between two rows as used by `KNNImputer`:
scaled by total dimensions over shared present dimensions; `none` when the
rows share no present dimension (NaN distance).  Squared distances compare
the same way as distances, so neighbor order is unaffected. -/
def sqDist (r1 r2 : List (Option ℚ)) : Option ℚ :=
  let pairs := List.zip r1 r2
  let shared := pairs.filterMap (fun p =>
    match p.1, p.2 with
    | some a, some b => some (a - b)
    | _, _ => none)
  if shared.isEmpty then none
  else some ((pairs.length : ℚ) / (shared.length : ℚ) *
    (shared.foldl (fun s d => s + d * d) 0))

/-- Generic insertion of `x` into `l` before the first element `y` with
`le x y`. -/
def insertByB {α : Type} (le : α → α → Bool) (x : α) : List α → List α
  | [] => [x]
  | y :: ys => if le x y then x :: y :: ys else y :: insertByB le x ys

/-- Insertion sort with a boolean comparison, used where the code sorts by a
computed key. -/
def sortByB {α : Type} (le : α → α → Bool) (l : List α) : List α :=
  l.foldr (insertByB le) []

/-- Modelled from the documented behavior of sklearn `KNNImputer(n_neighbors=5)`
for one missing cell `(i, j)`: average the column-`j` values of the up to 5
nearest donor rows (rows with column `j` present and a defined nan-euclidean
distance to row `i`); ties between equal distances are broken by row order.
When no donor has a defined distance, `KNNImputer` falls back to the fitted
column mean of the present values.  The remaining fallback (an all-missing
column) is unreachable: `_knn_impute` below raises on such input before
transforming. -/
def knnImputeVal (X : List (List (Option ℚ))) (i j : Nat) : ℚ :=
  let row_i := X.getD i []
  let donors := X.enum.filter (fun p => decide (p.1 ≠ i) && (p.2.getD j none).isSome)
  let scored := donors.filterMap (fun p =>
    (sqDist row_i p.2).map (fun d => (d, p.1, (p.2.getD j none).getD 0)))
  if scored.isEmpty then
    meanQ (X.filterMap (fun r => r.getD j none))
  else
    let sorted := sortByB (fun a b =>
      decide (a.1 < b.1) || (decide (a.1 = b.1) && decide (a.2.1 ≤ b.2.1))) scored
    meanQ ((sorted.take 5).map (fun a => a.2.2))

/-- The dense matrix `fit_transform` returns: every present cell is kept and
every missing cell is imputed; the output array has no NaN by construction. -/
def knnTransform (X : List (List (Option ℚ))) : List (List ℚ) :=
  X.enum.map (fun p => p.2.enum.map (fun q =>
    match q.2 with
    | some x => x
    | none => knnImputeVal X p.1 q.1))

/-- The numeric sub-frame `df[numeric_cols]` as a row-major matrix. -/
def knnMatrix (t : Table) (cols : List String) : List (List (Option ℚ)) :=
  (List.range t.nrows).map (fun i => cols.map (fun c => cellAt t c i))

/-- True when every name in `cols` is a numeric column of `t` with at least one
present value - the condition under which the sklearn call
`df[numeric_cols] = KNNImputer(n_neighbors=5).fit_transform(df[numeric_cols])`
succeeds (an all-NaN column is dropped by the transform, making the assignment
fail; an absent or non-numeric column raises earlier). -/
def knnPrecondB (t : Table) (cols : List String) : Bool :=
  cols.all (fun c =>
    match getNumCol t c with
    | some vals => vals.any (fun v => v.isSome)
    | none => false)

/-- Write the transformed matrix back into the frame: the model of
`df[numeric_cols] = imputer.fit_transform(df[numeric_cols])`.  Column number
`j` of the matrix replaces the column named `cols[j]`. -/
def knnAssign (t : Table) (cols : List String) : Table :=
  let y := knnTransform (knnMatrix t cols)
  { t with cols := t.cols.map (fun nd =>
      match cols.findIdx? (fun x => x == nd.1) with
      | some j => (nd.1, ColData.numeric
          ((List.range t.nrows).map (fun i => some ((y.getD i []).getD j 0))))
      | none => nd) }

/-- Model of `_knn_impute`: jointly impute all numeric columns with
`KNNImputer` (when there are any), then mode-fill the categorical columns
listed in the missing-map. -/
def _knn_impute (t : Table) (profile : Profile) : Except AnalyzerError Table :=
  let numeric_cols := profile.numeric_cols
  let catPass := fun (t1 : Table) => fillPass
    (fun acc col => updateCol acc col ColData.modeFill)
    profile.missing profile.categorical_cols t1
  if numeric_cols = [] then
    .ok (catPass t)
  else if knnPrecondB t numeric_cols then
    .ok (catPass (knnAssign t numeric_cols))
  else
    .error .sklearnFailure

/-- Model of `_random_forest_impute`: the placeholder delegates to k-NN. -/
def _random_forest_impute (t : Table) (profile : Profile) :
    Except AnalyzerError Table :=
  _knn_impute t profile

/-- Python max over the values of the missing-map (only called on nonempty
maps; 0 is an arbitrary value for the never-used empty case). -/
def maxPct : List (String × ℚ) → ℚ
  | [] => 0
  | x :: xs => xs.foldl (fun a cp => Max.max a cp.2) x.2

/-- Model of `impute_missing` (analyzer/cleaning.py).  The returned table is
the content of the written parquet file; the `file_path` entry of the result
dictionary is dropped from the model. -/
def impute_missing (t : Table) (profile : Profile) (method : String)
    (impute_threshold : ℚ) : Except AnalyzerError (Table × CleaningResult) :=
  if profile.missing = [] then
    .ok (t, { imputed_columns := [], skipped_columns := [], method_used := "none" })
  else
    let cols_to_impute := profile.missing.filter (fun cp => cp.2 ≤ impute_threshold)
    let skipped_columns := profile.missing.filter (fun cp => impute_threshold < cp.2)
    if cols_to_impute = [] then
      .ok (t, { imputed_columns := []
                skipped_columns := skipped_columns.map Prod.fst
                method_used := "none" })
    else
      let method1 := if method = "auto" then
          let max_missing_pct := maxPct cols_to_impute
          if max_missing_pct < 5 then "simple"
          else if max_missing_pct < 15 then "knn"
          else "random_forest"
        else method
      let impute_profile := { profile with missing := cols_to_impute }
      (if method1 = "simple" then .ok (_simple_impute t impute_profile)
       else if method1 = "knn" then _knn_impute t impute_profile
       else if method1 = "random_forest" then _random_forest_impute t impute_profile
       else .error (.invalidMethod method1)).map
        (fun df => (df, { imputed_columns := cols_to_impute.map Prod.fst
                          skipped_columns := skipped_columns.map Prod.fst
                          method_used := method1 }))

/-- Ascending sort on row indices, the model of the Python builtin `sorted`. -/
def sortAsc (l : List Nat) : List Nat :=
  List.insertionSort (fun a b : Nat => a ≤ b) l

/-- Model of `sorted(list(s))` for a set `s` of row indices collected in
list form: ascending order with duplicates removed. -/
def sortDedup (l : List Nat) : List Nat := (sortAsc l).dedup

/-- Whether row `i` is flagged by the IQR rule in column `c`: the cell is
present and lies strictly below `Q1 - 1.5 IQR` or strictly above
`Q3 + 1.5 IQR`.  On an all-NaN column both quantiles are NaN and the pandas
comparisons are all False, so nothing is flagged, matching the `none` case. -/
def iqrFlagB (t : Table) (c : String) (i : Nat) : Bool :=
  match getNumCol t c with
  | none => false
  | some vals =>
    match quantileQ (1/4) (vals.filterMap id), quantileQ (3/4) (vals.filterMap id) with
    | some q1, some q3 =>
      let iqr := q3 - q1
      let lower_bound := q1 - 3/2 * iqr
      let upper_bound := q3 + 3/2 * iqr
      match vals.getD i none with
      | some v => decide (v < lower_bound) || decide (upper_bound < v)
      | none => false
    | _, _ => false

/-- Model of `_iqr_outliers`: per column, collect the flagged row indices;
the Python set union followed by `sorted(list(...))` is the deduplicated
ascending sort of the concatenation. -/
def _iqr_outliers (t : Table) (numeric_cols : List String) : List Nat :=
  sortDedup (numeric_cols.foldl (fun acc c =>
    acc ++ (List.range t.nrows).filter (fun i => iqrFlagB t c i)) [])

/-- Indices of the rows kept by `df[numeric_cols].dropna()`: rows with every
listed column present. -/
def completeRows (t : Table) (cols : List String) : List Nat :=
  (List.range t.nrows).filter (fun i => cols.all (fun c => (cellAt t c i).isSome))

/-- The dropped-to-complete-rows sub-matrix, each row labelled with its
original index (the pandas index kept by `dropna`). -/
def completeMatrix (t : Table) (cols : List String) : List (Nat × List ℚ) :=
  (completeRows t cols).map (fun i => (i, cols.map (fun c => (cellAt t c i).getD 0)))

/-- Model of `_knn_outliers`.  The `LocalOutlierFactor(n_neighbors=5,
contamination=0.1).fit_predict` scoring is an external sklearn collaborator
whose flagged set the spec leaves unspecified; it enters the model as the
parameter `lofFn`, mapping the labelled complete-row matrix to the original
indices it flags.  The guard and post-processing are the code under test:
fewer than 10 complete rows short-circuits to the empty list, and flagged
indices are returned sorted ascending. -/
def _knn_outliers (lofFn : List (Nat × List ℚ) → List Nat)
    (t : Table) (numeric_cols : List String) : List Nat :=
  let x := completeMatrix t numeric_cols
  if x.length < 10 then []
  else sortAsc (lofFn x)

/-- Model of `_isolation_forest_outliers`, identically structured around the
external `IsolationForest(contamination=0.1, random_state=42)` scorer
`isoFn` (seeded, hence a function of its input). -/
def _isolation_forest_outliers (isoFn : List (Nat × List ℚ) → List Nat)
    (t : Table) (numeric_cols : List String) : List Nat :=
  let x := completeMatrix t numeric_cols
  if x.length < 10 then []
  else sortAsc (isoFn x)

/-- Model of `detect_outliers` (analyzer/cleaning.py), parameterised by the
two external sklearn scorers. -/
def detect_outliers (lofFn isoFn : List (Nat × List ℚ) → List Nat)
    (t : Table) (profile : Profile) (method : String) :
    Except AnalyzerError OutlierResult :=
  let numeric_cols := profile.numeric_cols
  if numeric_cols = [] then
    .ok { outlier_indices := [], method_used := "none", outlier_count := 0 }
  else
    let method1 := if method = "auto" then
        let n_numeric := numeric_cols.length
        if n_numeric < 5 then "iqr"
        else if n_numeric < 10 then "knn"
        else "isolation_forest"
      else method
    ((if method1 = "iqr" then .ok (_iqr_outliers t numeric_cols)
      else if method1 = "knn" then .ok (_knn_outliers lofFn t numeric_cols)
      else if method1 = "isolation_forest" then
        .ok (_isolation_forest_outliers isoFn t numeric_cols)
      else .error (.invalidMethod method1) :
      Except AnalyzerError (List Nat))).map
      (fun outlier_indices =>
        { outlier_indices := outlier_indices
          method_used := method1
          outlier_count := outlier_indices.length })

/-- Per-column describe statistics used by `analyze_data`.  `mean`, `min`,
`max` and `median` are rounded to 2 decimals as in the source; the standard
deviation is recorded through the exact sample variance `var` (denominator
n - 1, the pandas default), which determines it: `std = sqrt var` is
irrational in general and its 2-decimal rounding is not modelled - no claim
depends on it.  The variance is 0 where pandas would report NaN (n = 1). -/
structure ColStats where
  mean : ℚ
  var : ℚ
  min : ℚ
  max : ℚ
  median : ℚ
deriving DecidableEq

/-- Describe statistics of the present values of one numeric column; `none`
models the all-NaN describe output of an empty column. -/
def statsOf (l : List ℚ) : Option ColStats :=
  if l = [] then none
  else
    let n : ℚ := (l.length : ℚ)
    let m := meanQ l
    let v := (l.foldl (fun s x => s + (x - m) * (x - m)) 0) /
      (if l.length ≤ 1 then 1 else n - 1)
    some { mean := round2 m
           var := if l.length ≤ 1 then 0 else v
           min := round2 ((minOf l).getD 0)
           max := round2 ((l.foldl Max.max (l.getD 0 0)))
           median := round2 ((medianQ l).getD 0) }

/-- One entry of the Pearson correlation matrix, recorded as the exact
sufficient statistics of the pairwise-complete observations (the pandas
`corr` excludes NaN pairwise).  These determine the Pearson coefficient
r = (n sxy - sx sy) / sqrt((n sxx - sx^2)(n syy - sy^2)) exactly; r itself
is irrational in general and no claim depends on its value. -/
structure CorrEntry where
  n : Nat
  sx : ℚ
  sy : ℚ
  sxy : ℚ
  sxx : ℚ
  syy : ℚ
deriving DecidableEq

/-- The sufficient statistics of `df[c1].corr(df[c2])` over rows where both
cells are present. -/
def corrEntry (t : Table) (c1 c2 : String) : CorrEntry :=
  let pairs := (List.range t.nrows).filterMap (fun i =>
    match cellAt t c1 i, cellAt t c2 i with
    | some a, some b => some (a, b)
    | _, _ => none)
  { n := pairs.length
    sx := pairs.foldl (fun s p => s + p.1) 0
    sy := pairs.foldl (fun s p => s + p.2) 0
    sxy := pairs.foldl (fun s p => s + p.1 * p.2) 0
    sxx := pairs.foldl (fun s p => s + p.1 * p.1) 0
    syy := pairs.foldl (fun s p => s + p.2 * p.2) 0 }

/-- Present string values of a categorical column. -/
def presentCat (t : Table) (c : String) : List String :=
  match getColData t c with
  | some (ColData.categorical vals) => vals.filterMap id
  | _ => []

/-- Model of `value_counts().head(10)`: distinct present values with their
counts, most frequent first (ties kept in first-encountered order), cut to
the top 10. -/
def topCounts (vals : List String) : List (String × Nat) :=
  let counted := vals.eraseDups.map (fun v => (v, vals.count v))
  (sortByB (fun a b => b.2 ≤ a.2) counted).take 10

/-- The dictionary returned by `analyze_data`.  `correlations` is `none`
exactly when the source leaves the initial `None` in place. -/
structure AnalysisResult where
  statistics : List (String × Option ColStats)
  correlations : Option (List (String × List (String × CorrEntry)))
  categorical_summary : List (String × List (String × Nat))
deriving DecidableEq

/-- Present numeric values of column `c`. -/
def presentNum (t : Table) (c : String) : List ℚ :=
  match getNumCol t c with
  | some vals => vals.filterMap id
  | none => []

/-- Model of `analyze_data` (analyzer/analysis.py). -/
def analyze_data (t : Table) (profile : Profile) : AnalysisResult :=
  { statistics := profile.numeric_cols.map (fun c => (c, statsOf (presentNum t c)))
    correlations :=
      if 2 ≤ profile.numeric_cols.length then
        some (profile.numeric_cols.map (fun c1 =>
          (c1, profile.numeric_cols.map (fun c2 => (c2, corrEntry t c1 c2)))))
      else none
    categorical_summary := profile.categorical_cols.filterMap (fun c =>
      if profile.high_cardinality.contains c then none
      else some (c, topCounts (presentCat t c))) }

/-- Observation: the (first) column named `c` has no missing cell; vacuously
true when no such column exists. -/
def colCompleteB (t : Table) (c : String) : Bool :=
  ((getColData t c).map ColData.completeB).getD true

/-- Observation: the (first) column named `c` exists and has at least one
present value. -/
def colHasPresentB (t : Table) (c : String) : Bool :=
  ((getColData t c).map ColData.hasPresentB).getD false

/-- Column-level observation: numeric dtype with at least one present value. -/
def ColData.numPresB : ColData → Bool
  | .numeric vals => vals.any (fun v => v.isSome)
  | _ => false

/-- Observation: the (first) column named `c` is numeric and has at least one
present value. -/
def numPresentB (t : Table) (c : String) : Bool :=
  ((getColData t c).map ColData.numPresB).getD false

/-- Concrete table used in the checks below: the simple-imputation fixture of
tests/test_cleaning.py (age and income 20 percent missing numeric, city
20 percent missing categorical). -/
def tSimple : Table :=
  { nrows := 5
    cols := [("age", ColData.numeric [some 25, some 30, some 35, none, some 40]),
             ("income", ColData.numeric [some 50000, some 60000, none, some 80000, some 90000]),
             ("city", ColData.categorical [some "NYC", some "LA", none, some "NYC", some "LA"])] }

/-- Concrete table with one numeric column that is 50 percent missing and one
that is 25 percent missing: with threshold 30 the first is skipped and the
second eligible. -/
def tKnnBug : Table :=
  { nrows := 4
    cols := [("a", ColData.numeric [none, none, some 1, some 2]),
             ("b", ColData.numeric [none, some 1, some 2, some 3])] }

/-- Concrete table whose only column has no present value at all. -/
def tAllMissing : Table :=
  { nrows := 2, cols := [("a", ColData.numeric [none, none])] }

/-- Concrete table from the IQR fixture of tests/test_cleaning.py: the value
150 at row 5 is the outlier.  It has no missing cell. -/
def tIqr : Table :=
  { nrows := 6
    cols := [("age", ColData.numeric [some 25, some 30, some 35, some 40, some 45, some 150])] }

/-- Concrete table with no numeric column. -/
def tCatOnly : Table :=
  { nrows := 2, cols := [("city", ColData.categorical [some "NYC", none])] }

/-- Concrete zero-column table (3 rows of no columns). -/
def tZeroCols : Table := { nrows := 3, cols := [] }

/-- An arbitrary scorer standing in for the external sklearn predictors in
concrete checks. -/
def noScorer : List (Nat × List ℚ) → List Nat := fun _ => []

/-- Tiny concrete table for checks of the auto-resolution boundaries. -/
def tTiny : Table := { nrows := 2, cols := [("a", ColData.numeric [some 1, none])] }

/-- Hand-written profile naming one missing column at 3 percent, used to hit
the below-5 branch of the auto resolution. -/
def pTiny : Profile :=
  { rows := 2, cols := 1, missing := [("a", 3)], numeric_cols := ["a"]
    categorical_cols := [], date_cols := [], high_cardinality := []
    dimensionality := "low" }

theorem lookup_isSome_of_mem {β : Type} {a : String} {b : β} :
    ∀ {l : List (String × β)}, (a, b) ∈ l → (List.lookup a l).isSome = true := by
  intro l h
  induction l with
  | nil => cases h
  | cons hd tl ih =>
    obtain ⟨k, v⟩ := hd
    rcases List.mem_cons.mp h with h1 | h1
    · rw [show a = k from congrArg Prod.fst h1]
      simp [List.lookup_cons]
    · rw [List.lookup_cons]
      cases hak : a == k
      · exact ih h1
      · rfl

theorem mem_of_lookup_eq_some {β : Type} {a : String} {b : β} :
    ∀ {l : List (String × β)}, List.lookup a l = some b → (a, b) ∈ l := by
  intro l h
  induction l with
  | nil => cases h
  | cons hd tl ih =>
    obtain ⟨k, v⟩ := hd
    rw [List.lookup_cons] at h
    cases hak : a == k
    · rw [hak] at h
      exact List.mem_cons_of_mem _ (ih h)
    · rw [hak] at h
      obtain rfl : v = b := Option.some_injective _ h
      obtain rfl : a = k := by simpa using hak
      exact List.mem_cons_self _ _

theorem mem_foldl_append {α β : Type} (f : β → List α) (x : α) :
    ∀ (L : List β) (init : List α),
      (x ∈ L.foldl (fun acc b => acc ++ f b) init ↔ x ∈ init ∨ ∃ b ∈ L, x ∈ f b) := by
  intro L
  induction L with
  | nil => intro init; simp
  | cons b L ih =>
    intro init
    rw [List.foldl_cons, ih]
    simp only [List.mem_append, List.mem_cons]
    constructor
    · rintro ((h | h) | ⟨b2, hb2, hx⟩)
      · exact Or.inl h
      · exact Or.inr ⟨b, Or.inl rfl, h⟩
      · exact Or.inr ⟨b2, Or.inr hb2, hx⟩
    · rintro (h | ⟨b2, (rfl | hb2), hx⟩)
      · exact Or.inl (Or.inl h)
      · exact Or.inl (Or.inr hx)
      · exact Or.inr ⟨b2, hb2, hx⟩

theorem mem_sortAsc {x : Nat} {l : List Nat} : x ∈ sortAsc l ↔ x ∈ l :=
  (List.perm_insertionSort _ l).mem_iff

theorem sorted_sortAsc (l : List Nat) :
    List.Sorted (fun a b : Nat => a ≤ b) (sortAsc l) :=
  List.sorted_insertionSort _ l

theorem mem_sortDedup {x : Nat} {l : List Nat} : x ∈ sortDedup l ↔ x ∈ l := by
  unfold sortDedup
  rw [List.mem_dedup, mem_sortAsc]

theorem sortDedup_sorted_lt (l : List Nat) :
    List.Sorted (fun a b : Nat => a < b) (sortDedup l) := by
  have hs : List.Sorted (fun a b : Nat => a ≤ b) (sortDedup l) :=
    List.Pairwise.sublist (List.dedup_sublist (sortAsc l)) (sorted_sortAsc l)
  have hn : (sortDedup l).Nodup := List.nodup_dedup _
  exact (hs.and hn).imp (fun h => lt_of_le_of_ne h.1 h.2)

theorem all_isSome_map_fill {α : Type} (vals : List (Option α)) (m : α) :
    (vals.map (fun v => some (v.getD m))).all (fun v => v.isSome) = true := by
  rw [List.all_eq_true]
  rintro x hx
  obtain ⟨v, _, rfl⟩ := List.mem_map.mp hx
  rfl

theorem filterMap_id_ne_nil {α : Type} {vals : List (Option α)}
    (h : vals.any (fun v => v.isSome) = true) : vals.filterMap id ≠ [] := by
  obtain ⟨v, hv, hs⟩ := List.any_eq_true.mp h
  obtain ⟨a, rfl⟩ := Option.isSome_iff_exists.mp hs
  exact List.ne_nil_of_mem (List.mem_filterMap.mpr ⟨some a, hv, rfl⟩)

theorem any_isSome_map_fill {α : Type} {vals : List (Option α)} (m : α)
    (h : vals.any (fun v => v.isSome) = true) :
    (vals.map (fun v => some (v.getD m))).any (fun v => v.isSome) = true := by
  obtain ⟨v, hv, _⟩ := List.any_eq_true.mp h
  exact List.any_eq_true.mpr ⟨some (v.getD m), List.mem_map.mpr ⟨v, hv, rfl⟩, rfl⟩

theorem init_le_foldl_max : ∀ (l : List ℕ) (a : ℕ), a ≤ l.foldl Max.max a := by
  intro l
  induction l with
  | nil => intro a; exact Nat.le_refl a
  | cons h t ih =>
    intro a
    rw [List.foldl_cons]
    exact le_trans (le_max_left a h) (ih (Max.max a h))

theorem le_foldl_max {l : List ℕ} {x : ℕ} (hx : x ∈ l) :
    ∀ (a : ℕ), x ≤ l.foldl Max.max a := by
  induction l with
  | nil => cases hx
  | cons h t ih =>
    intro a
    rw [List.foldl_cons]
    rcases List.mem_cons.mp hx with rfl | hx2
    · exact le_trans (le_max_right a x) (init_le_foldl_max t (Max.max a x))
    · exact ih hx2 (Max.max a h)

theorem foldl_max_mem : ∀ (l : List ℕ) (a : ℕ),
    l.foldl Max.max a = a ∨ l.foldl Max.max a ∈ l := by
  intro l
  induction l with
  | nil => intro a; exact Or.inl rfl
  | cons h t ih =>
    intro a
    rw [List.foldl_cons]
    rcases ih (Max.max a h) with he | hm
    · rw [he]
      rcases max_choice a h with h1 | h1
      · exact Or.inl h1
      · exact Or.inr (by rw [h1]; exact List.mem_cons_self h t)
    · exact Or.inr (List.mem_cons_of_mem h hm)

theorem minOf_isSome {α : Type} [Min α] {l : List α} (h : l ≠ []) :
    (minOf l).isSome = true := by
  cases l with
  | nil => exact absurd rfl h
  | cons x xs => rfl

theorem modeOf_isSome {α : Type} [DecidableEq α] [LinearOrder α] {l : List α}
    (h : l ≠ []) : (modeOf l).isSome = true := by
  unfold modeOf
  apply minOf_isSome
  have hmc : l.foldl (fun a v => Max.max a (l.count v)) 0 =
      (l.map (fun v => l.count v)).foldl Max.max 0 := by
    rw [List.foldl_map]
  obtain ⟨v, hv, hcv⟩ : ∃ v ∈ l, l.count v = l.foldl (fun a v => Max.max a (l.count v)) 0 := by
    rcases foldl_max_mem (l.map (fun v => l.count v)) 0 with h0 | hin
    · obtain ⟨x, hx⟩ := List.exists_mem_of_ne_nil l h
      have hpos : 0 < l.count x := List.count_pos_iff.mpr hx
      have hmem : l.count x ∈ l.map (fun v => l.count v) :=
        List.mem_map.mpr ⟨x, hx, rfl⟩
      have hle := le_foldl_max hmem 0
      rw [h0] at hle
      omega
    · obtain ⟨v, hv, he⟩ := List.mem_map.mp hin
      exact ⟨v, hv, by rw [hmc, he]⟩
  apply List.ne_nil_of_mem
  show v ∈ _
  exact List.mem_filter.mpr ⟨List.mem_dedup.mpr hv, by simp [hcv]⟩

theorem medianQ_isSome {l : List ℚ} (h : l ≠ []) : (medianQ l).isSome = true := by
  unfold medianQ
  rw [if_neg h]
  dsimp only
  split <;> rfl

theorem lookup_map_keep (g : String × ColData → String × ColData)
    (hg : ∀ nd, (g nd).1 = nd.1) (c : String) :
    ∀ (l : List (String × ColData)),
      List.lookup c (l.map g) = (List.lookup c l).map (fun d => (g (c, d)).2) := by
  intro l
  induction l with
  | nil => rfl
  | cons hd tl ih =>
    obtain ⟨k, v⟩ := hd
    rw [List.map_cons]
    rcases hgp : g (k, v) with ⟨k2, v2⟩
    have hk2 : k2 = k := by
      have h1 := hg (k, v)
      rw [hgp] at h1
      exact h1
    rw [List.lookup_cons, List.lookup_cons, hk2]
    cases hck : c == k
    · exact ih
    · have hck2 : c = k := by simpa using hck
      subst hck2
      simp [hgp]

theorem getColData_updateCol (t : Table) (x : String) (f : ColData → ColData) (c : String) :
    getColData (updateCol t x f) c =
      (getColData t c).map (fun d => if c == x then f d else d) := by
  unfold getColData updateCol
  have hg : ∀ nd : String × ColData,
      ((fun nd : String × ColData => if nd.1 == x then (nd.1, f nd.2) else nd) nd).1 = nd.1 := by
    intro nd
    by_cases h : nd.1 == x <;> simp [h]
  rw [lookup_map_keep _ hg c]
  rcases List.lookup c t.cols with _ | d
  · rfl
  · simp only [Option.map_some]
    by_cases h : c == x <;> simp [h]

theorem medianFill_completeB {d : ColData} (h : d.completeB = true) :
    d.medianFill.completeB = true := by
  cases d with
  | numeric vals =>
    cases hm : medianQ (vals.filterMap id) with
    | none => simpa [ColData.medianFill, fillNumeric, hm] using h
    | some m =>
      simp only [ColData.medianFill, fillNumeric, hm, ColData.completeB]
      exact all_isSome_map_fill vals m
  | categorical vals => exact h
  | datetime vals => exact h

theorem modeFill_completeB {d : ColData} (h : d.completeB = true) :
    d.modeFill.completeB = true := by
  cases d with
  | numeric vals =>
    cases hm : modeOf (vals.filterMap id) with
    | none => simpa [ColData.modeFill, hm] using h
    | some m =>
      simp only [ColData.modeFill, hm, ColData.completeB]
      exact all_isSome_map_fill vals m
  | categorical vals =>
    cases hm : modeOf (vals.filterMap id) with
    | none => simpa [ColData.modeFill, hm] using h
    | some m =>
      simp only [ColData.modeFill, hm, ColData.completeB]
      exact all_isSome_map_fill vals m
  | datetime vals =>
    cases hm : modeOf (vals.filterMap id) with
    | none => simpa [ColData.modeFill, hm] using h
    | some m =>
      simp only [ColData.modeFill, hm, ColData.completeB]
      exact all_isSome_map_fill vals m

theorem modeFill_completeB_of_present {d : ColData} (h : d.hasPresentB = true) :
    d.modeFill.completeB = true := by
  cases d with
  | numeric vals =>
    cases hm : modeOf (vals.filterMap id) with
    | none =>
      have h2 := modeOf_isSome (filterMap_id_ne_nil h)
      rw [hm] at h2
      cases h2
    | some m =>
      simp only [ColData.modeFill, hm, ColData.completeB]
      exact all_isSome_map_fill vals m
  | categorical vals =>
    cases hm : modeOf (vals.filterMap id) with
    | none =>
      have h2 := modeOf_isSome (filterMap_id_ne_nil h)
      rw [hm] at h2
      cases h2
    | some m =>
      simp only [ColData.modeFill, hm, ColData.completeB]
      exact all_isSome_map_fill vals m
  | datetime vals =>
    cases hm : modeOf (vals.filterMap id) with
    | none =>
      have h2 := modeOf_isSome (filterMap_id_ne_nil h)
      rw [hm] at h2
      cases h2
    | some m =>
      simp only [ColData.modeFill, hm, ColData.completeB]
      exact all_isSome_map_fill vals m

theorem modeFill_hasPresentB {d : ColData} (h : d.hasPresentB = true) :
    d.modeFill.hasPresentB = true := by
  cases d with
  | numeric vals =>
    cases hm : modeOf (vals.filterMap id) with
    | none => simpa [ColData.modeFill, hm] using h
    | some m =>
      simp only [ColData.modeFill, hm, ColData.hasPresentB]
      exact any_isSome_map_fill m h
  | categorical vals =>
    cases hm : modeOf (vals.filterMap id) with
    | none => simpa [ColData.modeFill, hm] using h
    | some m =>
      simp only [ColData.modeFill, hm, ColData.hasPresentB]
      exact any_isSome_map_fill m h
  | datetime vals =>
    cases hm : modeOf (vals.filterMap id) with
    | none => simpa [ColData.modeFill, hm] using h
    | some m =>
      simp only [ColData.modeFill, hm, ColData.hasPresentB]
      exact any_isSome_map_fill m h

theorem medianFill_hasPresentB {d : ColData} (h : d.hasPresentB = true) :
    d.medianFill.hasPresentB = true := by
  cases d with
  | numeric vals =>
    cases hm : medianQ (vals.filterMap id) with
    | none => simpa [ColData.medianFill, fillNumeric, hm] using h
    | some m =>
      simp only [ColData.medianFill, fillNumeric, hm, ColData.hasPresentB]
      exact any_isSome_map_fill m h
  | categorical vals => exact h
  | datetime vals => exact h

theorem medianFill_completeB_of_numeric_present {vals : List (Option ℚ)}
    (h : vals.any (fun v => v.isSome) = true) :
    (ColData.numeric vals).medianFill.completeB = true := by
  cases hm : medianQ (vals.filterMap id) with
  | none =>
    have h2 := medianQ_isSome (filterMap_id_ne_nil h)
    rw [hm] at h2
    cases h2
  | some m =>
    simp only [ColData.medianFill, fillNumeric, hm, ColData.completeB]
    exact all_isSome_map_fill vals m

theorem numPresB_medianFill {d : ColData} (h : d.numPresB = true) :
    d.medianFill.numPresB = true := by
  cases d with
  | numeric vals =>
    cases hm : medianQ (vals.filterMap id) with
    | none => simpa [ColData.medianFill, fillNumeric, hm] using h
    | some m =>
      simp only [ColData.medianFill, fillNumeric, hm, ColData.numPresB]
      exact any_isSome_map_fill m h
  | categorical vals => cases h
  | datetime vals => cases h

theorem numPresB_completeB_medianFill {d : ColData} (h : d.numPresB = true) :
    d.medianFill.completeB = true := by
  cases d with
  | numeric vals => exact medianFill_completeB_of_numeric_present h
  | categorical vals => cases h
  | datetime vals => cases h

theorem obs_updateCol (t : Table) (x c : String) (f : ColData → ColData)
    (P : ColData → Bool) (b : Bool)
    (hf : ∀ d, P d = true → P (f d) = true)
    (h : ((getColData t c).map P).getD b = true) :
    ((getColData (updateCol t x f) c).map P).getD b = true := by
  rw [getColData_updateCol]
  rcases hl : getColData t c with _ | d
  · rw [hl] at h
    exact h
  · rw [hl] at h
    simp only [Option.map_some', Option.getD_some] at h ⊢
    by_cases hcx : c == x
    · rw [if_pos hcx]
      exact hf d h
    · rw [if_neg hcx]
      exact h

theorem estab_updateCol (t : Table) (c : String) (f : ColData → ColData)
    (P : ColData → Bool)
    (hf : ∀ d, P d = true → (f d).completeB = true)
    (h : ((getColData t c).map P).getD false = true) :
    colCompleteB (updateCol t c f) c = true := by
  unfold colCompleteB
  rw [getColData_updateCol]
  rcases hl : getColData t c with _ | d
  · rw [hl] at h
    cases h
  · rw [hl] at h
    simp only [Option.map_some', Option.getD_some] at h ⊢
    rw [if_pos (by simp : (c == c) = true)]
    exact hf d h

theorem fillPass_cons (fill : Table → String → Table) (m : List (String × ℚ))
    (a : String) (L : List String) (t : Table) :
    fillPass fill m (a :: L) t =
      fillPass fill m L (if (m.lookup a).isSome then fill t a else t) := by
  unfold fillPass
  rw [List.foldl_cons]

theorem fillPass_pres (fill : Table → String → Table) (m : List (String × ℚ)) (c : String)
    (hK : ∀ (t : Table) (x : String),
      colCompleteB t c = true → colCompleteB (fill t x) c = true) :
    ∀ (L : List String) (t : Table), colCompleteB t c = true →
      colCompleteB (fillPass fill m L t) c = true := by
  intro L
  induction L with
  | nil => intro t h; exact h
  | cons a L ih =>
    intro t h
    rw [fillPass_cons]
    by_cases hg : (m.lookup a).isSome
    · rw [if_pos hg]
      exact ih _ (hK t a h)
    · rw [if_neg hg]
      exact ih _ h

theorem fillPass_obs (fill : Table → String → Table) (m : List (String × ℚ))
    (P : Table → Bool)
    (hP : ∀ (t : Table) (x : String), P t = true → P (fill t x) = true) :
    ∀ (L : List String) (t : Table), P t = true → P (fillPass fill m L t) = true := by
  intro L
  induction L with
  | nil => intro t h; exact h
  | cons a L ih =>
    intro t h
    rw [fillPass_cons]
    by_cases hg : (m.lookup a).isSome
    · rw [if_pos hg]
      exact ih _ (hP t a h)
    · rw [if_neg hg]
      exact ih _ h

theorem fillPass_estab (fill : Table → String → Table) (m : List (String × ℚ)) (c : String)
    (P : Table → Bool)
    (hP : ∀ (t : Table) (x : String), P t = true → P (fill t x) = true)
    (hK : ∀ (t : Table) (x : String),
      colCompleteB t c = true → colCompleteB (fill t x) c = true)
    (hE : ∀ (t : Table), P t = true → colCompleteB (fill t c) c = true)
    (hg : (m.lookup c).isSome = true) :
    ∀ (L : List String) (t : Table), c ∈ L → P t = true →
      colCompleteB (fillPass fill m L t) c = true := by
  intro L
  induction L with
  | nil => intro t hc; cases hc
  | cons a L ih =>
    intro t hc hPt
    rw [fillPass_cons]
    by_cases hac : a = c
    · rw [hac, if_pos hg]
      exact fillPass_pres fill m c hK L _ (hE t hPt)
    · have hcL : c ∈ L := by
        rcases List.mem_cons.mp hc with h1 | h1
        · exact absurd h1.symm hac
        · exact h1
      by_cases hga : (m.lookup a).isSome
      · rw [if_pos hga]
        exact ih _ hcL (hP t a hPt)
      · rw [if_neg hga]
        exact ih _ hcL hPt

theorem findIdx?_isSome_of_mem {c : String} {cols : List String} (h : c ∈ cols) :
    (cols.findIdx? (fun x => x == c)).isSome = true := by
  rcases hf : cols.findIdx? (fun x => x == c) with _ | j
  · rw [List.findIdx?_eq_none_iff] at hf
    have h2 := hf c h
    simp at h2
  · rfl

theorem getColData_knnAssign (t : Table) (cols : List String) (c : String) :
    getColData (knnAssign t cols) c =
      (getColData t c).map (fun d =>
        match cols.findIdx? (fun x => x == c) with
        | some j => ColData.numeric ((List.range t.nrows).map (fun i =>
            some (((knnTransform (knnMatrix t cols)).getD i []).getD j 0)))
        | none => d) := by
  have hg : ∀ nd : String × ColData,
      ((fun nd : String × ColData =>
        match cols.findIdx? (fun x => x == nd.1) with
        | some j => (nd.1, ColData.numeric ((List.range t.nrows).map (fun i =>
            some (((knnTransform (knnMatrix t cols)).getD i []).getD j 0))))
        | none => nd) nd).1 = nd.1 := by
    intro nd
    rcases h : cols.findIdx? (fun x => x == nd.1) with _ | j <;> simp [h]
  unfold getColData knnAssign
  dsimp only
  rw [lookup_map_keep _ hg c]
  rcases hl : List.lookup c t.cols with _ | d
  · rfl
  · simp only [Option.map_some']
    rcases hf : cols.findIdx? (fun x => x == c) with _ | j <;> simp [hf]

theorem colCompleteB_knnAssign (t : Table) (cols : List String) (c : String)
    (h : c ∈ cols) : colCompleteB (knnAssign t cols) c = true := by
  unfold colCompleteB
  rw [getColData_knnAssign]
  rcases hl : getColData t c with _ | d
  · rfl
  · rcases hf : cols.findIdx? (fun x => x == c) with _ | j
    · have h2 := findIdx?_isSome_of_mem h
      rw [hf] at h2
      cases h2
    · simp only [Option.map_some', Option.getD_some]
      simp only [ColData.completeB, List.all_eq_true]
      intro x hx
      obtain ⟨i, _, rfl⟩ := List.mem_map.mp hx
      rfl

theorem obs_knnAssign_not_mem (t : Table) (cols : List String) (c : String)
    (P : ColData → Bool) (b : Bool) (h : c ∉ cols)
    (hobs : ((getColData t c).map P).getD b = true) :
    ((getColData (knnAssign t cols) c).map P).getD b = true := by
  rw [getColData_knnAssign]
  have hf : cols.findIdx? (fun x => x == c) = none := by
    rw [List.findIdx?_eq_none_iff]
    intro x hx
    cases hb : x == c
    · rfl
    · have hxc : x = c := by simpa using hb
      exact absurd (hxc ▸ hx) h
  rcases hl : getColData t c with _ | d
  · rw [hl] at hobs
    exact hobs
  · rw [hl] at hobs
    simp only [Option.map_some', Option.getD_some, hf] at hobs ⊢
    exact hobs

/-- C3 (amended): with method simple or knn, an eligible column (listed in the
profile missing-map with percentage at or below the threshold) that the
profile classifies as numeric or categorical and that has at least one
present value ends with zero missing cells in the returned table (for knn,
provided every listed numeric column has a present value, without which the
sklearn transform raises).  The column is also reported in imputed_columns. -/
theorem C3_eligible_complete (t : Table) (p : Profile) (method : String)
    (thr pct : ℚ) (c : String)
    (hmeth : method = "simple" ∨ method = "knn")
    (hc : (c, pct) ∈ p.missing) (hpct : pct ≤ thr)
    (hclass : (c ∈ p.numeric_cols ∧ numPresentB t c = true) ∨
              (c ∈ p.categorical_cols ∧ colHasPresentB t c = true))
    (hknn : method = "knn" → knnPrecondB t p.numeric_cols = true) :
    ∃ t1 r, impute_missing t p method thr = .ok (t1, r) ∧
      c ∈ r.imputed_columns ∧ colCompleteB t1 c = true := by
  have hmem_ci : (c, pct) ∈ p.missing.filter (fun cp => decide (cp.2 ≤ thr)) :=
    List.mem_filter.mpr ⟨hc, by simpa using hpct⟩
  have hmiss_ne : p.missing ≠ [] := List.ne_nil_of_mem hc
  have hcti_ne : p.missing.filter (fun cp => decide (cp.2 ≤ thr)) ≠ [] :=
    List.ne_nil_of_mem hmem_ci
  have hg : (List.lookup c (p.missing.filter (fun cp => decide (cp.2 ≤ thr)))).isSome = true :=
    lookup_isSome_of_mem hmem_ci
  have hcim : c ∈ (p.missing.filter (fun cp => decide (cp.2 ≤ thr))).map Prod.fst :=
    List.mem_map.mpr ⟨(c, pct), hmem_ci, rfl⟩
  have hK_med : ∀ (t2 : Table) (x : String),
      colCompleteB t2 c = true →
      colCompleteB (updateCol t2 x ColData.medianFill) c = true := by
    intro t2 x h
    exact obs_updateCol t2 x c ColData.medianFill ColData.completeB true
      (fun d hd => medianFill_completeB hd) h
  have hK_mode : ∀ (t2 : Table) (x : String),
      colCompleteB t2 c = true →
      colCompleteB (updateCol t2 x ColData.modeFill) c = true := by
    intro t2 x h
    exact obs_updateCol t2 x c ColData.modeFill ColData.completeB true
      (fun d hd => modeFill_completeB hd) h
  -- completeness of the simple imputation result
  have hsimple_c : colCompleteB
      (_simple_impute t { p with missing := p.missing.filter (fun cp => decide (cp.2 ≤ thr)) })
      c = true := by
    unfold _simple_impute
    dsimp only
    rcases hclass with ⟨hcn, hnum⟩ | ⟨hcc, hpres⟩
    · apply fillPass_pres _ _ c hK_mode
      exact fillPass_estab _ _ c (fun t2 => numPresentB t2 c)
        (fun t2 x h => obs_updateCol t2 x c ColData.medianFill ColData.numPresB false
          (fun d hd => numPresB_medianFill hd) h)
        hK_med
        (fun t2 h => estab_updateCol t2 c ColData.medianFill ColData.numPresB
          (fun d hd => numPresB_completeB_medianFill hd) h)
        hg p.numeric_cols t hcn hnum
    · apply fillPass_estab _ _ c (fun t2 => colHasPresentB t2 c)
        (fun t2 x h => obs_updateCol t2 x c ColData.modeFill ColData.hasPresentB false
          (fun d hd => modeFill_hasPresentB hd) h)
        hK_mode
        (fun t2 h => estab_updateCol t2 c ColData.modeFill ColData.hasPresentB
          (fun d hd => modeFill_completeB_of_present hd) h)
        hg p.categorical_cols _ hcc
      exact fillPass_obs _ _ (fun t2 => colHasPresentB t2 c)
        (fun t2 x h => obs_updateCol t2 x c ColData.medianFill ColData.hasPresentB false
          (fun d hd => medianFill_hasPresentB hd) h)
        p.numeric_cols t hpres
  -- completeness and success of the knn imputation result
  have hknn_main : knnPrecondB t p.numeric_cols = true →
      ∃ t1, _knn_impute t
        { p with missing := p.missing.filter (fun cp => decide (cp.2 ≤ thr)) } = .ok t1 ∧
        colCompleteB t1 c = true := by
    intro hpre
    unfold _knn_impute
    dsimp only
    rcases hclass with ⟨hcn, _⟩ | ⟨hcc, hpres⟩
    · have hne : p.numeric_cols ≠ [] := List.ne_nil_of_mem hcn
      rw [if_neg hne, if_pos hpre]
      refine ⟨_, rfl, ?_⟩
      exact fillPass_pres _ _ c hK_mode p.categorical_cols _
        (colCompleteB_knnAssign t p.numeric_cols c hcn)
    · by_cases hne : p.numeric_cols = []
      · rw [if_pos hne]
        refine ⟨_, rfl, ?_⟩
        exact fillPass_estab _ _ c (fun t2 => colHasPresentB t2 c)
          (fun t2 x h => obs_updateCol t2 x c ColData.modeFill ColData.hasPresentB false
            (fun d hd => modeFill_hasPresentB hd) h)
          hK_mode
          (fun t2 h => estab_updateCol t2 c ColData.modeFill ColData.hasPresentB
            (fun d hd => modeFill_completeB_of_present hd) h)
          hg p.categorical_cols t hcc hpres
      · rw [if_neg hne, if_pos hpre]
        refine ⟨_, rfl, ?_⟩
        by_cases hcn : c ∈ p.numeric_cols
        · exact fillPass_pres _ _ c hK_mode p.categorical_cols _
            (colCompleteB_knnAssign t p.numeric_cols c hcn)
        · apply fillPass_estab _ _ c (fun t2 => colHasPresentB t2 c)
            (fun t2 x h => obs_updateCol t2 x c ColData.modeFill ColData.hasPresentB false
              (fun d hd => modeFill_hasPresentB hd) h)
            hK_mode
            (fun t2 h => estab_updateCol t2 c ColData.modeFill ColData.hasPresentB
              (fun d hd => modeFill_completeB_of_present hd) h)
            hg p.categorical_cols _ hcc
          exact obs_knnAssign_not_mem t p.numeric_cols c ColData.hasPresentB false hcn hpres
  rcases hmeth with rfl | rfl
  · simp only [impute_missing]
    rw [if_neg hmiss_ne, if_neg hcti_ne,
      if_neg (show ¬ ("simple" = "auto") by decide), if_pos rfl]
    exact ⟨_, _, rfl, hcim, hsimple_c⟩
  · simp only [impute_missing]
    rw [if_neg hmiss_ne, if_neg hcti_ne,
      if_neg (show ¬ ("knn" = "auto") by decide),
      if_neg (show ¬ ("knn" = "simple") by decide), if_pos rfl]
    obtain ⟨t1, he, hcomp⟩ := hknn_main (hknn rfl)
    rw [he]
    exact ⟨t1, _, rfl, hcim, hcomp⟩

theorem impute_dispatch_eq (t : Table) (p : Profile) (m : String) (thr : ℚ)
    (hmiss_ne : p.missing ≠ [])
    (hel : p.missing.filter (fun cp => decide (cp.2 ≤ thr)) ≠ [])
    (hm : m ≠ "auto") :
    impute_missing t p m thr =
      ((if m = "simple" then .ok (_simple_impute t
          { p with missing := p.missing.filter (fun cp => decide (cp.2 ≤ thr)) })
        else if m = "knn" then _knn_impute t
          { p with missing := p.missing.filter (fun cp => decide (cp.2 ≤ thr)) }
        else if m = "random_forest" then _random_forest_impute t
          { p with missing := p.missing.filter (fun cp => decide (cp.2 ≤ thr)) }
        else .error (.invalidMethod m) :
        Except AnalyzerError Table)).map
        (fun df => (df,
          { imputed_columns := (p.missing.filter (fun cp => decide (cp.2 ≤ thr))).map Prod.fst
            skipped_columns := (p.missing.filter (fun cp => decide (thr < cp.2))).map Prod.fst
            method_used := m })) := by
  unfold impute_missing
  rw [if_neg hmiss_ne]
  dsimp only
  rw [if_neg hel, if_neg hm]

theorem impute_method_used_of_ok (t : Table) (p : Profile) (m : String) (thr : ℚ)
    (hmiss_ne : p.missing ≠ [])
    (hel : p.missing.filter (fun cp => decide (cp.2 ≤ thr)) ≠ [])
    (hm : m ≠ "auto") :
    ∀ t1 r, impute_missing t p m thr = .ok (t1, r) → r.method_used = m := by
  intro t1 r he
  rw [impute_dispatch_eq t p m thr hmiss_ne hel hm] at he
  by_cases h1 : m = "simple"
  · rw [if_pos h1] at he
    simp only [Except.map, Except.ok.injEq, Prod.mk.injEq] at he
    obtain ⟨h3, h4⟩ := he
    subst h4
    rfl
  · rw [if_neg h1] at he
    by_cases h2 : m = "knn"
    · rw [if_pos h2] at he
      rcases hk : _knn_impute t
          { p with missing := p.missing.filter (fun cp => decide (cp.2 ≤ thr)) } with e | df
      · rw [hk] at he
        simp only [Except.map] at he
        exact Except.noConfusion he
      · rw [hk] at he
        simp only [Except.map, Except.ok.injEq, Prod.mk.injEq] at he
        obtain ⟨h3, h4⟩ := he
        subst h4
        rfl
    · rw [if_neg h2] at he
      by_cases h3 : m = "random_forest"
      · rw [if_pos h3] at he
        rcases hk : _random_forest_impute t
            { p with missing := p.missing.filter (fun cp => decide (cp.2 ≤ thr)) } with e | df
        · rw [hk] at he
          simp only [Except.map] at he
          exact Except.noConfusion he
        · rw [hk] at he
          simp only [Except.map, Except.ok.injEq, Prod.mk.injEq] at he
          obtain ⟨h4, h5⟩ := he
          subst h5
          rfl
      · rw [if_neg h3] at he
        simp only [Except.map] at he
        exact Except.noConfusion he

theorem impute_auto_eq (t : Table) (p : Profile) (thr : ℚ)
    (hmiss_ne : p.missing ≠ [])
    (hel : p.missing.filter (fun cp => decide (cp.2 ≤ thr)) ≠ []) :
    impute_missing t p "auto" thr = impute_missing t p
      (if maxPct (p.missing.filter (fun cp => decide (cp.2 ≤ thr))) < 5 then "simple"
       else if maxPct (p.missing.filter (fun cp => decide (cp.2 ≤ thr))) < 15 then "knn"
       else "random_forest") thr := by
  by_cases h5 : maxPct (p.missing.filter (fun cp => decide (cp.2 ≤ thr))) < 5
  · rw [if_pos h5, impute_dispatch_eq t p "simple" thr hmiss_ne hel (by decide)]
    unfold impute_missing
    rw [if_neg hmiss_ne]
    dsimp only
    rw [if_neg hel, if_pos (rfl : ("auto" : String) = "auto"), if_pos h5]
  · rw [if_neg h5]
    by_cases h15 : maxPct (p.missing.filter (fun cp => decide (cp.2 ≤ thr))) < 15
    · rw [if_pos h15, impute_dispatch_eq t p "knn" thr hmiss_ne hel (by decide)]
      unfold impute_missing
      rw [if_neg hmiss_ne]
      dsimp only
      rw [if_neg hel, if_pos (rfl : ("auto" : String) = "auto"), if_neg h5, if_pos h15]
    · rw [if_neg h15, impute_dispatch_eq t p "random_forest" thr hmiss_ne hel (by decide)]
      unfold impute_missing
      rw [if_neg hmiss_ne]
      dsimp only
      rw [if_neg hel, if_pos (rfl : ("auto" : String) = "auto"), if_neg h5, if_neg h15]

/-- C4: with method auto and at least one eligible column, the resolved method
is a function of the maximum missing-percentage among eligible columns only:
strictly below 5 gives simple, from 5 up to but not including 15 gives knn,
and 15 or above gives random_forest; the call behaves exactly like a call
with the resolved method, and any returned result reports the resolved
method as method_used. -/
theorem C4_auto_resolution (t : Table) (p : Profile) (thr : ℚ)
    (hel : p.missing.filter (fun cp => decide (cp.2 ≤ thr)) ≠ []) :
    (impute_missing t p "auto" thr = impute_missing t p
      (if maxPct (p.missing.filter (fun cp => decide (cp.2 ≤ thr))) < 5 then "simple"
       else if maxPct (p.missing.filter (fun cp => decide (cp.2 ≤ thr))) < 15 then "knn"
       else "random_forest") thr) ∧
    (∀ t1 r, impute_missing t p "auto" thr = .ok (t1, r) →
      r.method_used =
        (if maxPct (p.missing.filter (fun cp => decide (cp.2 ≤ thr))) < 5 then "simple"
         else if maxPct (p.missing.filter (fun cp => decide (cp.2 ≤ thr))) < 15 then "knn"
         else "random_forest")) := by
  have hmiss_ne : p.missing ≠ [] := by
    intro h
    apply hel
    rw [h]
    rfl
  have hres_ne : (if maxPct (p.missing.filter (fun cp => decide (cp.2 ≤ thr))) < 5
      then "simple"
      else if maxPct (p.missing.filter (fun cp => decide (cp.2 ≤ thr))) < 15 then "knn"
      else "random_forest") ≠ "auto" := by
    split_ifs <;> decide
  refine ⟨impute_auto_eq t p thr hmiss_ne hel, ?_⟩
  intro t1 r he
  rw [impute_auto_eq t p thr hmiss_ne hel] at he
  exact impute_method_used_of_ok t p _ thr hmiss_ne hel hres_ne t1 r he

theorem detect_dispatch_eq (lofFn isoFn : List (Nat × List ℚ) → List Nat)
    (t : Table) (p : Profile) (m : String)
    (hne : p.numeric_cols ≠ []) (hm : m ≠ "auto") :
    detect_outliers lofFn isoFn t p m =
      ((if m = "iqr" then .ok (_iqr_outliers t p.numeric_cols)
        else if m = "knn" then .ok (_knn_outliers lofFn t p.numeric_cols)
        else if m = "isolation_forest" then
          .ok (_isolation_forest_outliers isoFn t p.numeric_cols)
        else .error (.invalidMethod m) :
        Except AnalyzerError (List Nat))).map
        (fun idxs =>
          { outlier_indices := idxs, method_used := m, outlier_count := idxs.length }) := by
  unfold detect_outliers
  rw [if_neg hne]
  dsimp only
  rw [if_neg hm]

/-- C5 (amended): an unrecognised method string fails with the invalid-method
error provided the call reaches method dispatch: for impute, when at least one
eligible missing column exists; for detect, when the profile lists at least
one numeric column.  (When those preconditions fail the functions return a
none result without validating the method - see the counterexample.) -/
theorem C5_unknown_method_errors (t : Table) (p : Profile) (m1 m2 : String) (thr : ℚ)
    (lofFn isoFn : List (Nat × List ℚ) → List Nat)
    (hm1 : m1 ≠ "auto" ∧ m1 ≠ "simple" ∧ m1 ≠ "knn" ∧ m1 ≠ "random_forest")
    (hm2 : m2 ≠ "auto" ∧ m2 ≠ "iqr" ∧ m2 ≠ "knn" ∧ m2 ≠ "isolation_forest") :
    (p.missing.filter (fun cp => decide (cp.2 ≤ thr)) ≠ [] →
      impute_missing t p m1 thr = .error (.invalidMethod m1)) ∧
    (p.numeric_cols ≠ [] →
      detect_outliers lofFn isoFn t p m2 = .error (.invalidMethod m2)) := by
  obtain ⟨h1, h2, h3, h4⟩ := hm1
  obtain ⟨g1, g2, g3, g4⟩ := hm2
  constructor
  · intro hel
    have hmiss_ne : p.missing ≠ [] := by
      intro h
      apply hel
      rw [h]
      rfl
    rw [impute_dispatch_eq t p m1 thr hmiss_ne hel h1,
      if_neg h2, if_neg h3, if_neg h4]
    rfl
  · intro hne
    rw [detect_dispatch_eq lofFn isoFn t p m2 hne g1,
      if_neg g2, if_neg g3, if_neg g4]
    rfl

/-- C10: the early returns bypass method validation: with an empty missing-map
impute returns a none result unchanged for every method string; with missing
columns but none eligible it returns a none result listing every missing
column as skipped, again for every method string; and detect with no numeric
columns returns an empty none result for every method string. -/
theorem C10_early_none_paths (t : Table) (p : Profile) (m : String) (thr : ℚ)
    (lofFn isoFn : List (Nat × List ℚ) → List Nat) :
    (p.missing = [] → impute_missing t p m thr =
      .ok (t, { imputed_columns := [], skipped_columns := [], method_used := "none" })) ∧
    (p.missing ≠ [] → p.missing.filter (fun cp => decide (cp.2 ≤ thr)) = [] →
      impute_missing t p m thr = .ok (t,
        { imputed_columns := []
          skipped_columns := (p.missing.filter (fun cp => decide (thr < cp.2))).map Prod.fst
          method_used := "none" })) ∧
    (p.numeric_cols = [] → detect_outliers lofFn isoFn t p m =
      .ok { outlier_indices := [], method_used := "none", outlier_count := 0 }) := by
  refine ⟨?_, ?_, ?_⟩
  · intro h
    unfold impute_missing
    rw [if_pos h]
  · intro hne hfe
    unfold impute_missing
    rw [if_neg hne]
    dsimp only
    rw [if_pos hfe]
  · intro h
    unfold detect_outliers
    rw [if_pos h]

/-- C6: detect with method knn or isolation_forest returns a result with an
empty outlier index list (and no error) whenever fewer than 10 rows survive
dropping the rows with a missing numeric cell. -/
theorem C6_few_rows_empty (t : Table) (p : Profile) (m : String)
    (lofFn isoFn : List (Nat × List ℚ) → List Nat)
    (hm : m = "knn" ∨ m = "isolation_forest")
    (hcons : ∀ c ∈ p.numeric_cols, (getNumCol t c).isSome = true)
    (h10 : (completeMatrix t p.numeric_cols).length < 10) :
    ∃ r, detect_outliers lofFn isoFn t p m = .ok r ∧ r.outlier_indices = [] := by
  by_cases hne : p.numeric_cols = []
  · unfold detect_outliers
    rw [if_pos hne]
    exact ⟨_, rfl, rfl⟩
  · rcases hm with rfl | rfl
    · rw [detect_dispatch_eq lofFn isoFn t p "knn" hne (by decide),
        if_neg (show ¬ (("knn" : String) = "iqr") by decide),
        if_pos (rfl : ("knn" : String) = "knn")]
      refine ⟨_, rfl, ?_⟩
      show _knn_outliers lofFn t p.numeric_cols = []
      unfold _knn_outliers
      dsimp only
      rw [if_pos h10]
    · rw [detect_dispatch_eq lofFn isoFn t p "isolation_forest" hne (by decide),
        if_neg (show ¬ (("isolation_forest" : String) = "iqr") by decide),
        if_neg (show ¬ (("isolation_forest" : String) = "knn") by decide),
        if_pos (rfl : ("isolation_forest" : String) = "isolation_forest")]
      refine ⟨_, rfl, ?_⟩
      show _isolation_forest_outliers isoFn t p.numeric_cols = []
      unfold _isolation_forest_outliers
      dsimp only
      rw [if_pos h10]

theorem getColData_of_getNumCol {t : Table} {c : String} {vals : List (Option ℚ)}
    (h : getNumCol t c = some vals) : getColData t c = some (ColData.numeric vals) := by
  unfold getNumCol at h
  rcases hl : getColData t c with _ | d
  · rw [hl] at h
    cases h
  · rw [hl] at h
    cases d with
    | numeric vs =>
      obtain rfl : vs = vals := by simpa using h
      rfl
    | categorical vs => cases h
    | datetime vs => cases h

theorem lt_length_of_getD_eq_some {α : Type} {l : List (Option α)} {i : Nat} {v : α}
    (h : l.getD i none = some v) : i < l.length := by
  by_contra hge
  rw [List.getD_eq_getElem?_getD, List.getElem?_eq_none (Nat.le_of_not_lt hge)] at h
  cases h

theorem iqrFlagB_lt_nrows {t : Table} {c : String} {i : Nat}
    (hwf : ∀ nd ∈ t.cols, ColData.length nd.2 = t.nrows)
    (h : iqrFlagB t c i = true) : i < t.nrows := by
  unfold iqrFlagB at h
  rcases hn : getNumCol t c with _ | vals <;> rw [hn] at h <;> dsimp only at h
  · cases h
  · rcases hq1 : quantileQ (1/4) (vals.filterMap id) with _ | q1 <;>
      rcases hq3 : quantileQ (3/4) (vals.filterMap id) with _ | q3 <;>
      rw [hq1, hq3] at h <;> dsimp only at h
    · cases h
    · cases h
    · cases h
    · rcases hv : vals.getD i none with _ | v <;> rw [hv] at h <;> dsimp only at h
      · cases h
      · have hlen : i < vals.length := lt_length_of_getD_eq_some hv
        have hmem : (c, ColData.numeric vals) ∈ t.cols :=
          mem_of_lookup_eq_some (getColData_of_getNumCol hn)
        have hlenc : vals.length = t.nrows := hwf _ hmem
        omega

/-- C7: detect with method iqr flags exactly the rows with, in at least one
numeric column, a present value strictly below Q1 - 1.5 IQR or strictly above
Q3 + 1.5 IQR for that column; the returned index list is strictly ascending
(so deduplicated) and the membership is the union of the per-column flags. -/
theorem C7_iqr_exact (t : Table) (p : Profile)
    (lofFn isoFn : List (Nat × List ℚ) → List Nat)
    (hwf : ∀ nd ∈ t.cols, ColData.length nd.2 = t.nrows) :
    ∃ r, detect_outliers lofFn isoFn t p "iqr" = .ok r ∧
      List.Sorted (fun a b : Nat => a < b) r.outlier_indices ∧
      (∀ i, i ∈ r.outlier_indices ↔ ∃ c ∈ p.numeric_cols, iqrFlagB t c i = true) := by
  by_cases hne : p.numeric_cols = []
  · unfold detect_outliers
    rw [if_pos hne]
    refine ⟨_, rfl, List.sorted_nil, ?_⟩
    intro i
    constructor
    · intro h
      cases h
    · rintro ⟨c, hc, _⟩
      rw [hne] at hc
      cases hc
  · rw [detect_dispatch_eq lofFn isoFn t p "iqr" hne (by decide),
      if_pos (rfl : ("iqr" : String) = "iqr")]
    refine ⟨_, rfl, ?_, ?_⟩
    · show List.Sorted _ (_iqr_outliers t p.numeric_cols)
      unfold _iqr_outliers
      exact sortDedup_sorted_lt _
    · intro i
      show i ∈ _iqr_outliers t p.numeric_cols ↔ _
      unfold _iqr_outliers
      rw [mem_sortDedup, mem_foldl_append]
      constructor
      · rintro (h | ⟨c, hc, hmem⟩)
        · cases h
        · rw [List.mem_filter] at hmem
          exact ⟨c, hc, hmem.2⟩
      · rintro ⟨c, hc, hflag⟩
        refine Or.inr ⟨c, hc, ?_⟩
        rw [List.mem_filter, List.mem_range]
        exact ⟨iqrFlagB_lt_nrows hwf hflag, hflag⟩

/-- C8: random_forest imputation delegates to knn: the whole call result is
the knn call result with the reported method renamed, so the cleaned tables
and the imputed and skipped lists are identical, and so are the error cases. -/
theorem C8_random_forest_equals_knn (t : Table) (p : Profile) (thr : ℚ) :
    impute_missing t p "random_forest" thr =
      Except.map (fun tr : Table × CleaningResult =>
        (tr.1, { tr.2 with method_used :=
          if tr.2.method_used = "knn" then "random_forest" else tr.2.method_used }))
        (impute_missing t p "knn" thr) := by
  by_cases hmiss : p.missing = []
  · unfold impute_missing
    rw [if_pos hmiss, if_pos hmiss]
    rfl
  · by_cases hel : p.missing.filter (fun cp => decide (cp.2 ≤ thr)) = []
    · unfold impute_missing
      rw [if_neg hmiss, if_neg hmiss]
      dsimp only
      rw [if_pos hel, if_pos hel]
      rfl
    · rw [impute_dispatch_eq t p "random_forest" thr hmiss hel (by decide),
        impute_dispatch_eq t p "knn" thr hmiss hel (by decide),
        if_neg (show ¬ (("random_forest" : String) = "simple") by decide),
        if_neg (show ¬ (("random_forest" : String) = "knn") by decide),
        if_pos (rfl : ("random_forest" : String) = "random_forest"),
        if_neg (show ¬ (("knn" : String) = "simple") by decide),
        if_pos (rfl : ("knn" : String) = "knn")]
      show Except.map _ (_random_forest_impute t _) = _
      unfold _random_forest_impute
      rcases _knn_impute t
          { p with missing := p.missing.filter (fun cp => decide (cp.2 ≤ thr)) } with e | df
      · rfl
      · rfl

/-- C9: the analysis result carries a correlation matrix exactly when the
profile lists at least 2 numeric columns (otherwise the field stays None),
and the matrix present is keyed by all numeric columns in order. -/
theorem C9_correlations_presence (t : Table) (p : Profile) :
    ((analyze_data t p).correlations.isSome = decide (2 ≤ p.numeric_cols.length)) ∧
    ((analyze_data t p).correlations.map (fun mtx => mtx.map Prod.fst) =
      if 2 ≤ p.numeric_cols.length then some p.numeric_cols else none) := by
  unfold analyze_data
  dsimp only
  by_cases h : 2 ≤ p.numeric_cols.length
  · rw [if_pos h, if_pos h]
    constructor
    · simp [h]
    · simp only [Option.map_some', List.map_map]
      rw [show (Prod.fst ∘ fun c1 : String =>
        (c1, List.map (fun c2 => (c2, corrEntry t c1 c2)) p.numeric_cols)) = id from rfl,
        List.map_id]
  · rw [if_neg h, if_neg h]
    constructor
    · simp [h]
    · rfl

/-- C2 (amended): profile_data never fails: it is a total pure function whose
rows and cols fields always report the table shape, and on a zero-column
table it returns the empty profile rather than raising (no SchemaError or any
other raise exists in profiling.py). -/
theorem C2_profile_total (t : Table) :
    (profile_data t).rows = t.nrows ∧ (profile_data t).cols = t.cols.length ∧
    (t.cols = [] → profile_data t =
      { rows := t.nrows, cols := 0, missing := [], numeric_cols := [],
        categorical_cols := [], date_cols := [], high_cardinality := [],
        dimensionality := "low" }) := by
  refine ⟨rfl, rfl, ?_⟩
  intro h
  simp [profile_data, h]

/-- C1: evaluation at the failing input.  On tKnnBug with threshold 30 and
method knn, column a is 50 percent missing (above the threshold) and is duly
reported in skipped_columns and kept out of imputed_columns, yet the joint
KNNImputer pass fills its missing cells: its first cell was missing before
the call and the whole column is complete after it. -/
theorem C1_knn_imputes_skipped_column :
    (profile_data tKnnBug).missing = [("a", 50), ("b", 25)] ∧
    cellAt tKnnBug "a" 0 = none ∧
    (match impute_missing tKnnBug (profile_data tKnnBug) "knn" 30 with
     | .ok (t1, r) => decide (r.skipped_columns = ["a"]) &&
         decide (r.imputed_columns = ["b"]) && colCompleteB t1 "a"
     | .error _ => false) = true := by
  with_unfolding_all decide

/-- Counterexample to C2 as stated: profile_data applied to a zero-column
table does not fail with a SchemaError (no such error exists in the code);
it returns an ordinary Profile. -/
theorem C2_counterexample :
    profile_data tZeroCols =
      { rows := 3, cols := 0, missing := [], numeric_cols := [],
        categorical_cols := [], date_cols := [], high_cardinality := [],
        dimensionality := "low" } := by
  with_unfolding_all decide

/-- Witness for C2: the amended theorem applied at the zero-column table. -/
theorem C2_profile_total_witness :
    profile_data tZeroCols =
      { rows := 3, cols := 0, missing := [], numeric_cols := [],
        categorical_cols := [], date_cols := [], high_cardinality := [],
        dimensionality := "low" } :=
  (C2_profile_total tZeroCols).2.2 rfl

/-- Counterexample to C3 as stated: with threshold 100 the all-missing column
a is eligible (100 is at the threshold) and is reported imputed, but median
imputation of a column with no present value fills nothing: its cells stay
missing. -/
theorem C3_counterexample :
    impute_missing tAllMissing (profile_data tAllMissing) "simple" 100 =
      .ok (tAllMissing,
        { imputed_columns := ["a"], skipped_columns := [], method_used := "simple" }) ∧
    cellAt tAllMissing "a" 0 = none := by
  with_unfolding_all decide

/-- Witness for C3: the amended theorem applied to the simple-imputation
fixture, eligible numeric column age. -/
theorem C3_eligible_complete_witness :
    ∃ t1 r, impute_missing tSimple (profile_data tSimple) "simple" 30 = .ok (t1, r) ∧
      "age" ∈ r.imputed_columns ∧ colCompleteB t1 "age" = true :=
  C3_eligible_complete tSimple (profile_data tSimple) "simple" 30 20 "age"
    (Or.inl rfl)
    (by with_unfolding_all decide)
    (by with_unfolding_all decide)
    (Or.inl ⟨by with_unfolding_all decide, by with_unfolding_all decide⟩)
    (fun h => absurd h (by decide))

/-- Witness for C4: the auto call on a 3 percent missing column resolves to
simple. -/
theorem C4_auto_resolution_witness :
    (impute_missing tTiny pTiny "auto" 30 = impute_missing tTiny pTiny
      (if maxPct (pTiny.missing.filter (fun cp => decide (cp.2 ≤ 30))) < 5 then "simple"
       else if maxPct (pTiny.missing.filter (fun cp => decide (cp.2 ≤ 30))) < 15 then "knn"
       else "random_forest") 30) ∧
    (∀ t1 r, impute_missing tTiny pTiny "auto" 30 = .ok (t1, r) →
      r.method_used =
        (if maxPct (pTiny.missing.filter (fun cp => decide (cp.2 ≤ 30))) < 5 then "simple"
         else if maxPct (pTiny.missing.filter (fun cp => decide (cp.2 ≤ 30))) < 15 then "knn"
         else "random_forest")) :=
  C4_auto_resolution tTiny pTiny 30 (by with_unfolding_all decide)

/-- Counterexample to C5 as stated: with no missing columns at all, impute
returns a none result without ever validating the method string, so an
invalid method does not raise. -/
theorem C5_counterexample :
    impute_missing tIqr (profile_data tIqr) "bogus" 30 =
      .ok (tIqr,
        { imputed_columns := [], skipped_columns := [], method_used := "none" }) := by
  with_unfolding_all decide

/-- Witness for C5: on a profile with an eligible missing column and a numeric
column, the invalid method string bogus raises in both functions. -/
theorem C5_unknown_method_errors_witness :
    impute_missing tSimple (profile_data tSimple) "bogus" 30 =
      .error (.invalidMethod "bogus") ∧
    detect_outliers noScorer noScorer tSimple (profile_data tSimple) "bogus" =
      .error (.invalidMethod "bogus") :=
  ⟨(C5_unknown_method_errors tSimple (profile_data tSimple) "bogus" "bogus" 30
      noScorer noScorer
      ⟨by decide, by decide, by decide, by decide⟩
      ⟨by decide, by decide, by decide, by decide⟩).1
      (by with_unfolding_all decide),
   (C5_unknown_method_errors tSimple (profile_data tSimple) "bogus" "bogus" 30
      noScorer noScorer
      ⟨by decide, by decide, by decide, by decide⟩
      ⟨by decide, by decide, by decide, by decide⟩).2
      (by with_unfolding_all decide)⟩

/-- Witness for C6: six complete rows are fewer than 10, so the knn detector
returns an empty result. -/
theorem C6_few_rows_empty_witness :
    ∃ r, detect_outliers noScorer noScorer tIqr (profile_data tIqr) "knn" = .ok r ∧
      r.outlier_indices = [] :=
  C6_few_rows_empty tIqr (profile_data tIqr) "knn" noScorer noScorer
    (Or.inl rfl)
    (by with_unfolding_all decide)
    (by with_unfolding_all decide)

/-- Witness for C7 at the IQR fixture table. -/
theorem C7_iqr_exact_witness :
    ∃ r, detect_outliers noScorer noScorer tIqr (profile_data tIqr) "iqr" = .ok r ∧
      List.Sorted (fun a b : Nat => a < b) r.outlier_indices ∧
      (∀ i, i ∈ r.outlier_indices ↔
        ∃ c ∈ (profile_data tIqr).numeric_cols, iqrFlagB tIqr c i = true) :=
  C7_iqr_exact tIqr (profile_data tIqr) noScorer noScorer
    (by with_unfolding_all decide)

/-- Witness for C10: all three early none paths at concrete inputs, with the
method string bogus never inspected. -/
theorem C10_early_none_paths_witness :
    (impute_missing tIqr (profile_data tIqr) "bogus" 30 =
      .ok (tIqr, { imputed_columns := [], skipped_columns := [], method_used := "none" })) ∧
    (impute_missing tKnnBug (profile_data tKnnBug) "bogus" 10 = .ok (tKnnBug,
      { imputed_columns := []
        skipped_columns := ((profile_data tKnnBug).missing.filter
          (fun cp => decide ((10 : ℚ) < cp.2))).map Prod.fst
        method_used := "none" })) ∧
    (detect_outliers noScorer noScorer tCatOnly (profile_data tCatOnly) "bogus" =
      .ok { outlier_indices := [], method_used := "none", outlier_count := 0 }) :=
  ⟨(C10_early_none_paths tIqr (profile_data tIqr) "bogus" 30 noScorer noScorer).1
      (by with_unfolding_all decide),
   (C10_early_none_paths tKnnBug (profile_data tKnnBug) "bogus" 10 noScorer noScorer).2.1
      (by with_unfolding_all decide) (by with_unfolding_all decide),
   (C10_early_none_paths tCatOnly (profile_data tCatOnly) "bogus" 30 noScorer noScorer).2.2
      (by with_unfolding_all decide)⟩
